import Mathlib

/-!
Verification of the multi-tenant API gateway (HanTheDev/multi-tenant-api-gateway).

This file gives a shallow embedding of the gateway's core components and proves
properties of the embedded code:

* the durable cache store operations (internal/db/queries.go),
* the per-tenant hourly quota enforcer (internal/ratelimit/ratelimit.go),
* prompt extraction and the request pipeline (internal/proxy/proxy.go),
* the two-stage semantic cache (internal/cache/semantic.go and the fuller
  variant of the same package found in the repository, with cosine-similarity
  search over volatile embeddings).

Go strings are modelled as lists of characters (`Str`), wall-clock instants as
naturals, Go `time.Duration` values as integers counting nanoseconds, and
`float64` arithmetic as real arithmetic.  External collaborators (the SHA-256
digest, the embedding HTTP service, upstream backends) are oracles supplied as
function parameters, exactly at the boundary where the Go code calls out.
-/

namespace Gateway

/-- Go strings, modelled as lists of characters. -/
abbrev Str := List Char

/-! ## Durable store: the semantic_cache table (internal/db/queries.go) -/

/-- One row of the `semantic_cache` table (models.SemanticCache,
internal/models/models.go lines 27-37). -/
structure CacheEntry where
  id : Nat
  tenant_id : Nat
  prompt_hash : Str
  prompt : Str
  response : Str
  embedding_stored : Bool
  hit_count : Nat
  created_at : Nat
  last_accessed : Nat
deriving Repr, DecidableEq

/-- The WHERE clause of the exact-stage lookup:
`WHERE tenant_id = $1 AND prompt_hash = $2` (queries.go line 60). -/
def rowMatches (tenantID : Nat) (promptHash : Str) (e : CacheEntry) : Bool :=
  e.tenant_id == tenantID && e.prompt_hash == promptHash

/-- The SET clause of the exact-stage lookup:
`SET hit_count = hit_count + 1, last_accessed = NOW()` (queries.go line 59). -/
def bumpHit (now : Nat) (e : CacheEntry) : CacheEntry :=
  { e with hit_count := e.hit_count + 1, last_accessed := now }

/-- db.GetCachedResponse (queries.go lines 56-82): a single
`UPDATE ... WHERE tenant_id = $1 AND prompt_hash = $2 RETURNING *`.
Returns the updated row and the updated table, or `none` when no row matched
(pgx returns ErrNoRows). -/
def DB.GetCachedResponse (store : List CacheEntry) (tenantID : Nat) (promptHash : Str)
    (now : Nat) : Option (CacheEntry × List CacheEntry) :=
  match store.find? (rowMatches tenantID promptHash) with
  | none => none
  | some e =>
      some (bumpHit now e,
        store.map fun r => if rowMatches tenantID promptHash r then bumpHit now r else r)

/-- The `prompt_hash` conflict test of the admission upsert
(`ON CONFLICT (prompt_hash)`, queries.go line 88). -/
def hashMatches (promptHash : Str) (e : CacheEntry) : Bool :=
  e.prompt_hash == promptHash

/-- The DO UPDATE clause of the admission upsert:
`SET response = EXCLUDED.response, last_accessed = NOW()` (queries.go line 89).
All other columns of the conflicting row are left untouched. -/
def conflictUpdate (response : Str) (now : Nat) (e : CacheEntry) : CacheEntry :=
  { e with response := response, last_accessed := now }

/-- db.StoreCachedResponse (queries.go lines 84-101):
`INSERT INTO semantic_cache (tenant_id, prompt_hash, prompt, response,
embedding_stored) VALUES ... ON CONFLICT (prompt_hash) DO UPDATE SET
response = EXCLUDED.response, last_accessed = NOW()`.
The INSERT leaves the remaining columns to their schema defaults; the schema
file is not under src/, so the defaults are modelled from the spec: a serial
id, hit_count 0, and NOW() timestamps. -/
def DB.StoreCachedResponse (store : List CacheEntry) (tenantID : Nat)
    (promptHash prompt response : Str) (embeddingStored : Bool) (now : Nat) :
    List CacheEntry :=
  if store.any (hashMatches promptHash) then
    store.map fun e => if hashMatches promptHash e then conflictUpdate response now e else e
  else
    store ++ [{ id := store.length, tenant_id := tenantID, prompt_hash := promptHash,
                prompt := prompt, response := response, embedding_stored := embeddingStored,
                hit_count := 0, created_at := now, last_accessed := now }]

/-! ## Quota enforcer (internal/ratelimit/ratelimit.go) -/

/-- Write a key in an association list, overwriting any previous binding
(the semantics of a Redis SET/INCR result, last write wins). -/
def assocSet (l : List (Str × Nat)) (k : Str) (v : Nat) : List (Str × Nat) :=
  l.filter (fun e => !(e.1 == k)) ++ [(k, v)]

/-- Read a key from an association list; a missing Redis counter reads as 0,
which is what INCR starts from. -/
def assocGet (l : List (Str × Nat)) (k : Str) : Nat :=
  ((l.find? (fun e => e.1 == k)).map (fun e => e.2)).getD 0

/-- The volatile quota state: the counters and the expiries (in seconds)
set by EXPIRE. -/
structure RLStore where
  counters : List (Str × Nat)
  ttls : List (Str × Nat)
deriving Repr

/-- The hour-bucket key `ratelimit:tenant:<id>:<YYYY-MM-DD-HH>`
(ratelimit.go line 27).  The bucket component is the wall-clock hour rendered
by time.Now().Format("2006-01-02-15"), supplied here as an input. -/
def rlKey (tenantID : Nat) (hourBucket : Str) : Str :=
  "ratelimit:tenant:".data ++ Nat.toDigits 10 tenantID ++ ":".data ++ hourBucket

/-- ratelimit.RateLimiter.Allow (ratelimit.go lines 26-39): INCR the
hour-bucket key, EXPIRE it for one hour (3600 s) when the incremented count is
1, and return `count <= limit`.  `fail` is the Redis-error oracle: on failure
the function returns the error (`none`) and the pipeline fails closed. -/
def RateLimiter.Allow (st : RLStore) (fail : Bool) (tenantID limit : Nat)
    (hourBucket : Str) : Option (Bool × RLStore) :=
  let key := rlKey tenantID hourBucket
  if fail then none
  else
    let count := assocGet st.counters key + 1
    let st' : RLStore :=
      { counters := assocSet st.counters key count,
        ttls := if count = 1 then assocSet st.ttls key 3600 else st.ttls }
    some (decide (count ≤ limit), st')

/-- The state after `n` successful Allow calls for the same tenant and
hour bucket. -/
def allowIter (tenantID limit : Nat) (hourBucket : Str) (st : RLStore) : Nat → RLStore
  | 0 => st
  | n + 1 =>
      match RateLimiter.Allow (allowIter tenantID limit hourBucket st n) false tenantID
          limit hourBucket with
      | some (_, st') => st'
      | none => allowIter tenantID limit hourBucket st n

/-- The boolean outcome of the (k+1)-th Allow call in a same-hour sequence. -/
def nthAllowed (tenantID limit : Nat) (hourBucket : Str) (st : RLStore) (k : Nat) :
    Option Bool :=
  (RateLimiter.Allow (allowIter tenantID limit hourBucket st k) false tenantID limit
    hourBucket).map (fun p => p.1)

/-! ## JSON bodies and prompt extraction (internal/proxy/proxy.go lines 250-276) -/

/-- JSON values as decoded by encoding/json into `interface\x7b\x7d`:
objects become maps, arrays become slices, numbers become float64 (modelled as
rationals; extraction never inspects them). -/
inductive Json where
  | null
  | bool (b : Bool)
  | num (q : ℚ)
  | str (s : Str)
  | arr (elems : List Json)
  | obj (fields : List (Str × Json))

/-- Map access on a decoded JSON object.  encoding/json keeps the last value
for a duplicated key, hence the reversed search. -/
def jGet (fields : List (Str × Json)) (k : Str) : Option Json :=
  (fields.reverse.find? (fun e => e.1 == k)).map (fun e => e.2)

/-- The fallback chain of extractPromptFromBody after the messages branch:
a string field "prompt", else a string field "question", else empty
(proxy.go lines 265-275). -/
def promptOrQuestion (reqBody : List (Str × Json)) : Str :=
  match jGet reqBody "prompt".data with
  | some (.str p) => p
  | _ =>
      match jGet reqBody "question".data with
      | some (.str q) => q
      | _ => []

/-- proxy.Handler.extractPromptFromBody (proxy.go lines 250-276).
`none` stands for a body that json.Unmarshal cannot decode into
`map[string]interface\x7b\x7d` (including non-object top level), which Go
reports as an error and the function maps to "".  The messages branch returns
only when the field is a non-empty array whose last element is an object with
a string "content"; any failed assertion falls through to the prompt and
question fields. -/
def extractPromptFromBody (parsed : Option Json) : Str :=
  match parsed with
  | some (.obj reqBody) =>
      (match jGet reqBody "messages".data with
       | some (.arr messages) =>
           if messages.length > 0 then
             match messages.getLast? with
             | some (.obj lastMsg) =>
                 (match jGet lastMsg "content".data with
                  | some (.str content) => content
                  | _ => promptOrQuestion reqBody)
             | _ => promptOrQuestion reqBody
           else promptOrQuestion reqBody
       | _ => promptOrQuestion reqBody)
  | _ => []

/-! ## LLM-path recognition (proxy.go lines 240-248) -/

/-- strings.Contains, on character lists. -/
def strContains (s sub : Str) : Bool :=
  (List.range (s.length + 1)).any (fun i => sub.isPrefixOf (s.drop i))

/-- The recognized LLM path substrings (proxy.go line 241). -/
def llmPaths : List Str :=
  ["/v1/chat/completions".data, "/v1/completions".data, "/api/chat".data,
   "/llm".data, "/generate".data]

/-- proxy.Handler.isLLMRequest (proxy.go lines 240-248): substring match of
the request path against the recognized LLM paths. -/
def isLLMRequest (path : Str) : Bool :=
  llmPaths.any (fun p => strContains path p)

/-! ## Upstream attempts and the retry loop (proxy.go lines 143-209) -/

/-- The outcome of one reverse-proxy attempt: either the upstream responded
and the recorder captured its status, or the transport failed and the
ErrorHandler ran. -/
inductive UpstreamOutcome where
  | status (code : Nat)
  | errDeadline
  | errNoSuchHost
  | errConnRefused
  | errOther
deriving Repr, DecidableEq

/-- The status the response recorder holds after one attempt: the upstream
status, or the status written by proxy.ErrorHandler (proxy.go lines 143-155):
context deadline → 504, DNS failure → 502, connection refused → 502, any other
transport error → 502. -/
def capturedStatus : UpstreamOutcome → Nat
  | .status code => code
  | .errDeadline => 504
  | .errNoSuchHost => 502
  | .errConnRefused => 502
  | .errOther => 502

/-- maxRetries (proxy.go line 173). -/
def maxRetries : Nat := 2

/-- The observable result of the retry loop: the final recorder status, the
number of proxy attempts performed, and the back-off sleeps in milliseconds
in the order they happened. -/
structure RetryResult where
  status : Nat
  attempts : Nat
  sleepsMs : List Nat
deriving Repr, DecidableEq

/-- The body of the retry loop (proxy.go lines 176-209), one iteration per
fuel unit starting at iteration index `attempt`:  a retry iteration first
sleeps `attempt * 500` ms and resets the recorder, then attempts the proxy,
and the loop breaks when the captured status lies in [200, 500) or the
iterations are exhausted.  `proxyRetry` enters with fuel `maxRetries + 1`,
mirroring `for attempt := 0; attempt <= maxRetries; attempt++`. -/
def proxyLoop (outcome : Nat → UpstreamOutcome) : Nat → Nat → List Nat → RetryResult
  | 0, attempt, sleeps => { status := 0, attempts := attempt, sleepsMs := sleeps }
  | fuel + 1, attempt, sleeps =>
      let sleeps' := if attempt > 0 then sleeps ++ [attempt * 500] else sleeps
      let s := capturedStatus (outcome attempt)
      if 200 ≤ s ∧ s < 500 then { status := s, attempts := attempt + 1, sleepsMs := sleeps' }
      else if fuel = 0 then { status := s, attempts := attempt + 1, sleepsMs := sleeps' }
      else proxyLoop outcome fuel (attempt + 1) sleeps'

/-- The retry loop of ServeHTTP (proxy.go lines 172-209). -/
def proxyRetry (outcome : Nat → UpstreamOutcome) : RetryResult :=
  proxyLoop outcome (maxRetries + 1) 0 []

/-! ## The request pipeline (proxy.go lines 36-238) -/

/-- A tenant row (models.Tenant). -/
structure Tenant where
  id : Nat
  name : Str
  api_key : Str
  rate_limit_per_hour : Nat
  backend_url : Str

/-- An access-log row as built by logAccess (proxy.go lines 278-289). -/
structure AccessLog where
  tenant_id : Nat
  endpoint : Str
  method : Str
  status_code : Nat
  response_time_ms : Nat
  request_size : Int
  response_size : Int
deriving Repr, DecidableEq

/-- The JWT claims placed in the request context by the auth middleware. -/
structure Claims where
  tenant_id : Nat
  api_key : Str

/-- What the cache lookup returns to the handler: the Go triple
(response, hit, error), with `errored` standing for a non-nil error. -/
structure LookupResult where
  response : Str
  hit : Bool
  errored : Bool
deriving Repr, DecidableEq

/-- One inbound HTTP request. -/
structure Request where
  path : Str
  method : Str
  hasBody : Bool
  bodyLen : Nat
  bodyJson : Option Json
  contentLength : Int

/-- The collaborators of the handler, supplied as oracles at exactly the
points where ServeHTTP calls out: the auth context, the tenant directory,
the rate limiter, body readability, URL parsing, the semantic cache, the
upstream attempts, and the wall clock. -/
structure World where
  claims : Option Claims
  tenantByAPIKey : Str → Option Tenant
  allowResult : Option Bool
  readBodyOk : Bool
  backendURLOk : Bool
  cache : Nat → Str → LookupResult
  upstream : Nat → UpstreamOutcome
  upstreamBodyLen : Nat
  elapsedMs : Nat

/-- The observable outcome of one ServeHTTP run. -/
structure HttpOut where
  status : Nat
  xCacheHit : Bool
  logs : List AccessLog
  cacheConsulted : Bool
  attempts : Nat
  sleepsMs : List Nat
  admitted : Bool
  proxied : Bool

/-- The path forwarded upstream: a leading "/api" is stripped
(proxy.go lines 157-162). -/
def strippedPath (path : Str) : Str :=
  if "/api".data.isPrefixOf path then path.drop 4 else path

/-- proxy.Handler.ServeHTTP (proxy.go lines 36-238), as a function of the
request and the collaborating oracles.  Each early `http.Error` return is one
terminal state; note which of them append an access-log record. -/
def serveHTTP (w : World) (r : Request) : HttpOut :=
  match w.claims with
  | none =>
      { status := 401, xCacheHit := false, logs := [], cacheConsulted := false,
        attempts := 0, sleepsMs := [], admitted := false, proxied := false }
  | some claims =>
      match w.tenantByAPIKey claims.api_key with
      | none =>
          { status := 404, xCacheHit := false, logs := [], cacheConsulted := false,
            attempts := 0, sleepsMs := [], admitted := false, proxied := false }
      | some tenant =>
          match w.allowResult with
          | none =>
              { status := 500, xCacheHit := false, logs := [], cacheConsulted := false,
                attempts := 0, sleepsMs := [], admitted := false, proxied := false }
          | some allowed =>
              if !allowed then
                { status := 429, xCacheHit := false, logs := [], cacheConsulted := false,
                  attempts := 0, sleepsMs := [], admitted := false, proxied := false }
              else if r.hasBody ∧ ¬ (w.readBodyOk = true) then
                { status := 400, xCacheHit := false, logs := [], cacheConsulted := false,
                  attempts := 0, sleepsMs := [], admitted := false, proxied := false }
              else
                let bodyLen := if r.hasBody then r.bodyLen else 0
                let prompt := extractPromptFromBody r.bodyJson
                let consult := isLLMRequest r.path = true ∧ 0 < bodyLen ∧ prompt ≠ []
                let cr := w.cache tenant.id prompt
                if consult ∧ cr.errored = false ∧ cr.hit = true then
                  { status := 200, xCacheHit := true,
                    logs := [{ tenant_id := tenant.id, endpoint := r.path,
                               method := r.method, status_code := 200,
                               response_time_ms := w.elapsedMs,
                               request_size := r.contentLength,
                               response_size := (cr.response.length : Int) }],
                    cacheConsulted := decide consult, attempts := 0, sleepsMs := [],
                    admitted := false, proxied := false }
                else if ¬ (w.backendURLOk = true) then
                  { status := 500, xCacheHit := false, logs := [],
                    cacheConsulted := decide consult, attempts := 0, sleepsMs := [],
                    admitted := false, proxied := false }
                else
                  let res := proxyRetry w.upstream
                  { status := res.status, xCacheHit := false,
                    logs := [{ tenant_id := tenant.id, endpoint := r.path,
                               method := r.method, status_code := res.status,
                               response_time_ms := w.elapsedMs,
                               request_size := r.contentLength,
                               response_size := (w.upstreamBodyLen : Int) }],
                    cacheConsulted := decide consult,
                    attempts := res.attempts, sleepsMs := res.sleepsMs,
                    admitted := decide (isLLMRequest (strippedPath r.path) = true ∧
                      res.status = 200 ∧ 0 < bodyLen ∧ prompt ≠ [] ∧
                      0 < w.upstreamBodyLen),
                    proxied := true }

/-! ## Volatile embedding store (Redis keys of the semantic cache) -/

/-- A value held at an embedding key: either a JSON-encoded float vector that
json.Unmarshal decodes, or bytes on which decoding fails. -/
inductive RedisVal where
  | vec (v : List ℝ)
  | junk

/-- One volatile entry, with the expiration passed to redis Set recorded as a
Go time.Duration, i.e. an integer count of nanoseconds (0 = no expiry). -/
structure RedisEntry where
  key : Str
  val : RedisVal
  ttlNs : Int

abbrev RedisStore := List RedisEntry

/-- Redis SET: overwrite the key. -/
def redisSet (store : RedisStore) (key : Str) (v : RedisVal) (ttlNs : Int) : RedisStore :=
  store.filter (fun e => !(e.key == key)) ++ [{ key := key, val := v, ttlNs := ttlNs }]

/-- Redis GET. -/
def redisGet (store : RedisStore) (key : Str) : Option RedisVal :=
  (store.find? (fun e => e.key == key)).map (fun e => e.val)

/-- Redis KEYS with a pattern of the form `<pat>*`: all keys extending `pat`. -/
def redisKeys (store : RedisStore) (pat : Str) : List Str :=
  (store.map (fun e => e.key)).filter (fun k => pat.isPrefixOf k)

/-- The scan pattern `embedding:tenant:<id>:` of the semantic stage
(pattern "embedding:tenant:%d:*", the fuller cache variant line 62). -/
def tenantScanPat (tenantID : Nat) : Str :=
  "embedding:tenant:".data ++ Nat.toDigits 10 tenantID ++ ":".data

/-- The key stem `embedding:tenant:<id>:prompt:` used both to build embedding
keys and to slice the prompt hash back out of a winning key (lines 61/88/129
of the cache sources). -/
def tenantPromptStem (tenantID : Nat) : Str :=
  "embedding:tenant:".data ++ Nat.toDigits 10 tenantID ++ ":prompt:".data

/-- The embedding key `embedding:tenant:<tenantId>:prompt:<promptHash>`. -/
def embeddingKey (tenantID : Nat) (promptHash : Str) : Str :=
  tenantPromptStem tenantID ++ promptHash

/-- The suffix extraction `key[len("embedding:tenant:%d:prompt:"):]`
(fuller cache variant line 88); these keys are ASCII so byte slicing and
character slicing agree. -/
def keyHashSuffix (tenantID : Nat) (key : Str) : Str :=
  key.drop (tenantPromptStem tenantID).length

/-! ## Cosine similarity (fuller cache variant lines 166-183) -/

/-- The accumulated sum of pairwise products of the similarity loop; the three
accumulators dotProduct, normA and normB are all of this shape. -/
noncomputable def zipDot (a b : List ℝ) : ℝ :=
  (a.zip b).foldl (fun s p => s + p.1 * p.2) 0

/-- cosineSimilarity (fuller cache variant lines 166-183): 0 on mismatched
lengths, 0 when either norm is zero (never NaN), else
dot / (sqrt(normA) * sqrt(normB)).  float64 arithmetic is modelled as real
arithmetic. -/
noncomputable def cosineSimilarity (a b : List ℝ) : ℝ :=
  if a.length ≠ b.length then 0
  else
    let dotProduct := zipDot a b
    let normA := zipDot a a
    let normB := zipDot b b
    if normA = 0 ∨ normB = 0 then 0
    else dotProduct / (Real.sqrt normA * Real.sqrt normB)

/-! ## The semantic cache (internal/cache/semantic.go and the fuller variant
of the same package shipped in the repository) -/

/-- The SemanticCache struct.  The database and Redis handles are passed as
explicit state; the remaining fields model the struct members and the external
calls made through them: `hashPrompt` is the SHA-256 hex digest
(hashPrompt, lines 40-44 of both variants; the digest function itself is
cryptographic and opaque), `embed` is getEmbedding — the POST to the embedding
service, `none` meaning transport failure or an undecodable reply — and
`similarityThreshold` is set to 0.85 by NewSemanticCache. -/
structure SemanticCache where
  hashPrompt : Str → Str
  embed : Str → Option (List ℝ)
  similarityThreshold : ℝ

/-- The two stores the cache operates on. -/
structure CacheSt where
  db : List CacheEntry
  redis : RedisStore

/-- The similarity of the query against the decoded vector at one scanned key,
`none` when the GET fails or the value does not decode (both `continue` in the
loop). -/
noncomputable def simOf (redis : RedisStore) (query : List ℝ) (key : Str) :
    Option ℝ :=
  match redisGet redis key with
  | some (.vec v) => some (cosineSimilarity query v)
  | _ => none

namespace CacheFull

/-- One iteration of the candidate loop of the semantic stage (fuller cache
variant lines 72-90): failed GETs and undecodable values are skipped, and the
tracked (bestMatch, bestSimilarity) pair is updated when
`similarity > bestSimilarity && similarity >= threshold`, slicing the prompt
hash out of the winning key. -/
noncomputable def candidateStep (threshold : ℝ) (redis : RedisStore) (tenantID : Nat)
    (query : List ℝ) (acc : Str × ℝ) (key : Str) : Str × ℝ :=
  match simOf redis query key with
  | none => acc
  | some similarity =>
      if similarity > acc.2 ∧ similarity ≥ threshold then
        (keyHashSuffix tenantID key, similarity)
      else acc

/-- The candidate loop of the semantic stage (fuller cache variant lines
68-90): fold the step over the scanned keys starting from ("", 0.0). -/
noncomputable def bestCandidate (threshold : ℝ) (redis : RedisStore) (tenantID : Nat)
    (query : List ℝ) (keys : List Str) : Str × ℝ :=
  keys.foldl (candidateStep threshold redis tenantID query) ([], 0)

/-- SemanticCache.GetCachedResponse, fuller cache variant lines 46-101.
Stage 1 is the exact-hash atomic read-modify-write; stage 2 embeds the prompt
(a failure returns the wrapped non-nil error), scans the tenant's embedding
keys (`scanErr` is the Keys-error oracle; a scan error returns a plain miss),
runs the candidate loop, and fetches the winner's durable row (a fetch miss is
an overall miss). -/
noncomputable def GetCachedResponse (sc : SemanticCache) (scanErr : Bool) (st : CacheSt)
    (tenantID : Nat) (prompt : Str) (now : Nat) : LookupResult × CacheSt :=
  let promptHash := sc.hashPrompt prompt
  match DB.GetCachedResponse st.db tenantID promptHash now with
  | some (cached, db') =>
      ({ response := cached.response, hit := true, errored := false }, { st with db := db' })
  | none =>
      match sc.embed prompt with
      | none => ({ response := [], hit := false, errored := true }, st)
      | some queryEmbedding =>
          if scanErr then ({ response := [], hit := false, errored := false }, st)
          else
            let keys := redisKeys st.redis (tenantScanPat tenantID)
            let best := bestCandidate sc.similarityThreshold st.redis tenantID
              queryEmbedding keys
            if best.1 ≠ [] then
              match DB.GetCachedResponse st.db tenantID best.1 now with
              | some (cached, db') =>
                  ({ response := cached.response, hit := true, errored := false },
                    { st with db := db' })
              | none => ({ response := [], hit := false, errored := false }, st)
            else ({ response := [], hit := false, errored := false }, st)

/-- The expiration the admission path passes to redis Set
(fuller cache variant line 133): the untyped Go constant 7*24*60*60 becomes a
time.Duration, which counts nanoseconds. -/
def embeddingStoreTTLns : Int := 7 * 24 * 60 * 60

/-- SemanticCache.StoreCachedResponse, fuller cache variant lines 103-137:
upsert the durable row (a db error is returned and nothing else runs), then
the detached task — modelled as run to completion — computes the embedding
(failures are silently dropped) and stores it at the embedding key with the
expiration of `embeddingStoreTTLns`. -/
noncomputable def StoreCachedResponse (sc : SemanticCache) (dbFail : Bool) (st : CacheSt)
    (tenantID : Nat) (prompt response : Str) (now : Nat) : Option CacheSt :=
  let promptHash := sc.hashPrompt prompt
  if dbFail then none
  else
    let db' := DB.StoreCachedResponse st.db tenantID promptHash prompt response false now
    match sc.embed prompt with
    | none => some { st with db := db' }
    | some embedding =>
        some { db := db',
               redis := redisSet st.redis (embeddingKey tenantID promptHash)
                 (.vec embedding) embeddingStoreTTLns }

end CacheFull

namespace CacheSimple

/-- SemanticCache.GetCachedResponse, internal/cache/semantic.go lines 45-70:
after an exact-stage miss this variant embeds the prompt (a failure returns
the non-nil error), stores the query's own embedding at
`embedding:tenant:<id>:prompt:<hash>` with no expiration (Set ttl 0), and
always reports a miss — the similarity search is left unimplemented. -/
def GetCachedResponse (sc : SemanticCache) (st : CacheSt) (tenantID : Nat)
    (prompt : Str) (now : Nat) : LookupResult × CacheSt :=
  let promptHash := sc.hashPrompt prompt
  match DB.GetCachedResponse st.db tenantID promptHash now with
  | some (cached, db') =>
      ({ response := cached.response, hit := true, errored := false }, { st with db := db' })
  | none =>
      match sc.embed prompt with
      | none => ({ response := [], hit := false, errored := true }, st)
      | some embedding =>
          let redis' := redisSet st.redis (embeddingKey tenantID promptHash)
            (.vec embedding) 0
          ({ response := [], hit := false, errored := false }, { st with redis := redis' })

/-- SemanticCache.StoreCachedResponse, internal/cache/semantic.go lines
72-101: as the fuller variant, but the detached embedding write passes
expiration 0 (no expiry) to redis Set. -/
def StoreCachedResponse (sc : SemanticCache) (dbFail : Bool) (st : CacheSt)
    (tenantID : Nat) (prompt response : Str) (now : Nat) : Option CacheSt :=
  let promptHash := sc.hashPrompt prompt
  if dbFail then none
  else
    let db' := DB.StoreCachedResponse st.db tenantID promptHash prompt response false now
    match sc.embed prompt with
    | none => some { st with db := db' }
    | some embedding =>
        some { db := db',
               redis := redisSet st.redis (embeddingKey tenantID promptHash)
                 (.vec embedding) 0 }

end CacheSimple

/-- The dual-store invariant of the data model: every volatile entry sits at a
well-formed embedding key whose hash portion is the prompt_hash of some
durable CacheEntry. -/
def EmbInv (st : CacheSt) : Prop :=
  ∀ e ∈ st.redis, ∃ t h, e.key = embeddingKey t h ∧
    ∃ c ∈ st.db, c.prompt_hash = h

/-- The similarities the semantic stage computes for a tenant's scanned and
decodable entries. -/
noncomputable def tenantSims (redis : RedisStore) (tenantID : Nat) (query : List ℝ) :
    List ℝ :=
  (redisKeys redis (tenantScanPat tenantID)).filterMap (simOf redis query)

/-! ## Spec-side restatement of prompt extraction (spec.md section 6)

The following definitions transcribe the spec's ordered extraction rules
verbatim, independently of the code's control flow, so that the claim about
extraction order can be stated as an equality of the two functions. -/

/-- Spec rule 1: messages is a non-empty array and its last element has a
string field content. -/
def specMessagesRule (fields : List (Str × Json)) : Option Str :=
  match jGet fields "messages".data with
  | some (.arr messages) =>
      if messages.length ≠ 0 then
        match messages.getLast? with
        | some (.obj lastMsg) =>
            match jGet lastMsg "content".data with
            | some (.str content) => some content
            | _ => none
        | _ => none
      else none
  | _ => none

/-- Spec rule 2: prompt is a string. -/
def specPromptRule (fields : List (Str × Json)) : Option Str :=
  match jGet fields "prompt".data with
  | some (.str p) => some p
  | _ => none

/-- Spec rule 3: question is a string. -/
def specQuestionRule (fields : List (Str × Json)) : Option Str :=
  match jGet fields "question".data with
  | some (.str q) => some q
  | _ => none

/-- The spec's extraction: rules tried in order, first match wins, otherwise
empty. -/
def specExtractPrompt (parsed : Option Json) : Str :=
  match parsed with
  | some (.obj fields) =>
      (((specMessagesRule fields).or (specPromptRule fields)).or
        (specQuestionRule fields)).getD []
  | _ => []

/-! ## Theorems -/

/-! ### Helper lemmas on the durable store -/

theorem find?_selectiveMap {α : Type} (p : α → Bool) (g : α → α)
    (hg : ∀ a, p (g a) = p a) :
    ∀ l : List α, (l.map fun e => if p e then g e else e).find? p = (l.find? p).map g := by
  intro l
  induction l with
  | nil => rfl
  | cons a l ih =>
      by_cases hpa : p a = true
      · have hga : p (g a) = true := by rw [hg]; exact hpa
        rw [List.map_cons, if_pos hpa, List.find?_cons_of_pos _ hga,
          List.find?_cons_of_pos _ hpa, Option.map_some']
      · rw [List.map_cons, if_neg hpa, List.find?_cons_of_neg _ hpa,
          List.find?_cons_of_neg _ hpa, ih]

theorem conflictUpdate_hashMatches (h : Str) (response : Str) (now : Nat) (e : CacheEntry) :
    hashMatches h (conflictUpdate response now e) = hashMatches h e := rfl

/-- After an admission upsert, the row found by the conflict hash is the
conflict-updated previous row (when one existed). -/
theorem find?_StoreCachedResponse_of_found (store : List CacheEntry) (tenantID : Nat)
    (promptHash prompt response : Str) (emb : Bool) (now : Nat) (c : CacheEntry)
    (hc : store.find? (hashMatches promptHash) = some c) :
    (DB.StoreCachedResponse store tenantID promptHash prompt response emb now).find?
      (hashMatches promptHash) = some (conflictUpdate response now c) := by
  have hany : store.any (hashMatches promptHash) = true :=
    List.any_eq_true.mpr ⟨c, List.mem_of_find?_eq_some hc, List.find?_some hc⟩
  unfold DB.StoreCachedResponse
  rw [if_pos hany, find?_selectiveMap (hashMatches promptHash) (conflictUpdate response now)
    (fun a => conflictUpdate_hashMatches _ _ _ _), hc, Option.map_some']

/-- After an admission upsert on a fresh hash, the row found by the hash is the
newly inserted row. -/
theorem find?_StoreCachedResponse_of_fresh (store : List CacheEntry) (tenantID : Nat)
    (promptHash prompt response : Str) (emb : Bool) (now : Nat)
    (hc : store.find? (hashMatches promptHash) = none) :
    (DB.StoreCachedResponse store tenantID promptHash prompt response emb now).find?
      (hashMatches promptHash) =
      some { id := store.length, tenant_id := tenantID, prompt_hash := promptHash,
             prompt := prompt, response := response, embedding_stored := emb,
             hit_count := 0, created_at := now, last_accessed := now } := by
  have hany : store.any (hashMatches promptHash) = false := by
    rw [List.any_eq_false]
    intro a ha
    have := List.find?_eq_none.mp hc a ha
    simpa using this
  unfold DB.StoreCachedResponse
  rw [if_neg (by simp [hany])]
  rw [List.find?_append, List.find?_eq_none.mpr (fun a ha hp => by
    have := List.find?_eq_none.mp hc a ha
    simp_all)]
  simp [hashMatches]

/-- C8: two sequential admissions with the same prompt hash converge to the
later response with a refreshed last_accessed; hit_count, and the identity of
the originally inserted row (tenant, prompt, creation time, hash), are
preserved — the upsert never resets hit_count. -/
theorem admit_idempotent_on_hash (store : List CacheEntry)
    (t1 t2 : Nat) (hashA hashB p1 p2 r1 r2 : Str) (e1 e2 : Bool) (now1 now2 : Nat)
    (hsame : hashA = hashB) :
    ∃ c2, (DB.StoreCachedResponse
              (DB.StoreCachedResponse store t1 hashA p1 r1 e1 now1)
              t2 hashB p2 r2 e2 now2).find? (hashMatches hashB) = some c2 ∧
      c2.response = r2 ∧ c2.last_accessed = now2 ∧ c2.prompt_hash = hashB ∧
      (∀ c1, (DB.StoreCachedResponse store t1 hashA p1 r1 e1 now1).find?
          (hashMatches hashB) = some c1 →
        c2.hit_count = c1.hit_count ∧ c2.tenant_id = c1.tenant_id ∧
        c2.created_at = c1.created_at ∧ c2.prompt = c1.prompt) ∧
      (∀ c0, store.find? (hashMatches hashB) = some c0 →
        c2.hit_count = c0.hit_count ∧ c2.tenant_id = c0.tenant_id ∧
        c2.created_at = c0.created_at ∧ c2.prompt = c0.prompt) := by
  subst hsame
  rcases hfind : store.find? (hashMatches hashA) with _ | c0
  · -- fresh insert, then conflict update
    have h1 := find?_StoreCachedResponse_of_fresh store t1 hashA p1 r1 e1 now1 hfind
    have h2 := find?_StoreCachedResponse_of_found _ t2 hashA p2 r2 e2 now2 _ h1
    refine ⟨_, h2, rfl, rfl, rfl, ?_, ?_⟩
    · intro c1 hc1
      rw [h1] at hc1
      injection hc1 with hc1
      subst hc1
      exact ⟨rfl, rfl, rfl, rfl⟩
    · intro c0 hc0
      exact Option.noConfusion hc0
  · -- conflict update twice
    have h1 := find?_StoreCachedResponse_of_found store t1 hashA p1 r1 e1 now1 c0 hfind
    have h2 := find?_StoreCachedResponse_of_found _ t2 hashA p2 r2 e2 now2 _ h1
    refine ⟨_, h2, rfl, rfl, ?_, ?_, ?_⟩
    · have : hashMatches hashA c0 = true := List.find?_some hfind
      simpa [hashMatches] using this
    · intro c1 hc1
      rw [h1] at hc1
      injection hc1 with hc1
      subst hc1
      exact ⟨rfl, rfl, rfl, rfl⟩
    · intro c0' hc0
      injection hc0 with hc0
      subst hc0
      exact ⟨rfl, rfl, rfl, rfl⟩

/-- Witness for C8 at a concrete input: on an initially empty table, admitting
hash "h" with response "r1" at time 5 and again with response "r2" at time 9
leaves a single matching row carrying the later response, the later
last_accessed, and the untouched hit_count 0. -/
theorem admit_idempotent_on_hash_witness :
    ((DB.StoreCachedResponse
        (DB.StoreCachedResponse [] 1 "h".data "p1".data "r1".data false 5)
        2 "h".data "p2".data "r2".data false 9).find? (hashMatches "h".data)).map
      (fun c => (c.response, c.last_accessed, c.hit_count, c.tenant_id)) =
      some ("r2".data, 9, 0, 1) := by
  obtain ⟨c2, hfind, hresp, hlast, _, hfrom1, _⟩ :=
    admit_idempotent_on_hash [] 1 2 "h".data "h".data "p1".data "p2".data
      "r1".data "r2".data false false 5 9 rfl
  obtain ⟨hhit, hten, _, _⟩ := hfrom1
    ⟨0, 1, "h".data, "p1".data, "r1".data, false, 0, 5, 5⟩ (by decide)
  rw [hfind, Option.map_some', hresp, hlast, hhit, hten]

theorem assocGet_assocSet (l : List (Str × Nat)) (k : Str) (v : Nat) :
    assocGet (assocSet l k v) k = v := by
  unfold assocGet assocSet
  rw [List.find?_append, List.find?_eq_none.mpr ?_]
  · simp
  · intro e he
    have := (List.mem_filter.mp he).2
    simpa using this

theorem assocGet_allowIter (tenantID limit : Nat) (hourBucket : Str) (st : RLStore)
    (n : Nat) :
    assocGet (allowIter tenantID limit hourBucket st n).counters (rlKey tenantID hourBucket) =
      assocGet st.counters (rlKey tenantID hourBucket) + n := by
  induction n with
  | zero => rfl
  | succ n ih =>
      show assocGet (match RateLimiter.Allow (allowIter tenantID limit hourBucket st n)
          false tenantID limit hourBucket with
        | some (_, st') => st'
        | none => allowIter tenantID limit hourBucket st n).counters _ = _
      rw [show RateLimiter.Allow (allowIter tenantID limit hourBucket st n) false tenantID
          limit hourBucket = some (_, _) from rfl]
      show assocGet (assocSet _ _ _) _ = _
      rw [assocGet_assocSet, ih]
      omega

/-- C6: quota enforcement.  (a) A quota-subsystem failure is reported as an
error.  (b) A successful Allow call increments the hour-bucket counter, reports
`count ≤ limit`, and sets the 1-hour expiry exactly when the incremented count
is 1.  (c) With quota `limit` and a fresh bucket, the first `limit` calls of
the hour are allowed and call `limit + 1` is rejected.  (d) In the pipeline, a
quota error yields 500 (fail closed) and a rejection yields 429. -/
theorem allow_quota_semantics (st : RLStore) (tenantID limit : Nat) (hourBucket : Str) :
    (RateLimiter.Allow st true tenantID limit hourBucket = none) ∧
    (∀ allowed st', RateLimiter.Allow st false tenantID limit hourBucket =
        some (allowed, st') →
      (allowed = true ↔ assocGet st.counters (rlKey tenantID hourBucket) + 1 ≤ limit) ∧
      assocGet st'.counters (rlKey tenantID hourBucket) =
        assocGet st.counters (rlKey tenantID hourBucket) + 1 ∧
      (assocGet st.counters (rlKey tenantID hourBucket) = 0 →
        st'.ttls = assocSet st.ttls (rlKey tenantID hourBucket) 3600) ∧
      (assocGet st.counters (rlKey tenantID hourBucket) ≠ 0 → st'.ttls = st.ttls)) ∧
    (assocGet st.counters (rlKey tenantID hourBucket) = 0 →
      (∀ k, k < limit → nthAllowed tenantID limit hourBucket st k = some true) ∧
      nthAllowed tenantID limit hourBucket st limit = some false) ∧
    (∀ w r c ten, w.claims = some c → w.tenantByAPIKey c.api_key = some ten →
      (w.allowResult = none → (serveHTTP w r).status = 500) ∧
      (w.allowResult = some false → (serveHTTP w r).status = 429)) := by
  refine ⟨rfl, ?_, ?_, ?_⟩
  · intro allowed st' h
    rw [show RateLimiter.Allow st false tenantID limit hourBucket =
      some (_, _) from rfl] at h
    injection h with h1
    injection h1 with ha hs
    subst ha
    subst hs
    refine ⟨by simp, assocGet_assocSet _ _ _, ?_, ?_⟩
    · intro h0
      show (if assocGet st.counters (rlKey tenantID hourBucket) + 1 = 1 then _ else _) = _
      rw [if_pos (by omega)]
    · intro h0
      show (if assocGet st.counters (rlKey tenantID hourBucket) + 1 = 1 then _ else _) = _
      rw [if_neg (by omega)]
  · intro h0
    constructor
    · intro k hk
      unfold nthAllowed
      rw [show RateLimiter.Allow (allowIter tenantID limit hourBucket st k) false tenantID
        limit hourBucket = some (_, _) from rfl]
      rw [Option.map_some']
      congr 1
      rw [assocGet_allowIter, h0]
      simp only [decide_eq_true_eq]
      omega
    · unfold nthAllowed
      rw [show RateLimiter.Allow (allowIter tenantID limit hourBucket st limit) false tenantID
        limit hourBucket = some (_, _) from rfl]
      rw [Option.map_some']
      congr 1
      rw [assocGet_allowIter, h0]
      simp only [decide_eq_false_iff_not]
      omega
  · intro w r c ten hc hten
    constructor
    · intro hal
      simp [serveHTTP, hc, hten, hal]
    · intro hal
      simp [serveHTTP, hc, hten, hal]

/-- Witness for C6 at a concrete input: tenant 7 with quota 2 and a fresh
hour bucket gets its first two requests allowed and the third rejected, the
first increment sets the 1-hour expiry on the bucket key, and a pipeline run
whose quota answer is a rejection terminates with 429. -/
theorem allow_quota_semantics_witness :
    nthAllowed 7 2 "2026-10-11-17".data { counters := [], ttls := [] } 0 = some true ∧
    nthAllowed 7 2 "2026-10-11-17".data { counters := [], ttls := [] } 1 = some true ∧
    nthAllowed 7 2 "2026-10-11-17".data { counters := [], ttls := [] } 2 = some false ∧
    (∀ st', RateLimiter.Allow { counters := [], ttls := [] } false 7 2 "2026-10-11-17".data =
        some (true, st') →
      st'.ttls = assocSet [] (rlKey 7 "2026-10-11-17".data) 3600) ∧
    (serveHTTP
        ⟨some ⟨7, "k".data⟩, fun _ => some ⟨7, "T".data, "k".data, 2, "u".data⟩,
         some false, true, true, fun _ _ => ⟨[], false, false⟩, fun _ => .status 200, 0, 0⟩
        ⟨"/api/x".data, "GET".data, false, 0, none, 0⟩).status = 429 := by
  obtain ⟨-, hcall, hseq, hpipe⟩ :=
    allow_quota_semantics { counters := [], ttls := [] } 7 2 "2026-10-11-17".data
  obtain ⟨hall, hlast⟩ := hseq (by decide)
  refine ⟨hall 0 (by decide), hall 1 (by decide), hlast, ?_, ?_⟩
  · intro st' h
    exact (hcall true st' h).2.2.1 (by decide)
  · exact (hpipe _ _ ⟨7, "k".data⟩ ⟨7, "T".data, "k".data, 2, "u".data⟩ rfl rfl).2 rfl

/-! ### The candidate loop -/

theorem candidateLoop_ne_nil_persists (threshold : ℝ) (redis : RedisStore)
    (tenantID : Nat) (query : List ℝ) :
    ∀ (keys : List Str) (acc : Str × ℝ),
      (∀ k ∈ keys, keyHashSuffix tenantID k ≠ []) → acc.1 ≠ [] →
      (keys.foldl (CacheFull.candidateStep threshold redis tenantID query) acc).1 ≠ [] := by
  intro keys
  induction keys with
  | nil => intro acc _ h; exact h
  | cons k ks ih =>
      intro acc hwf hacc
      rw [List.foldl_cons]
      refine ih _ (fun k' hk' => hwf k' (List.mem_cons_of_mem _ hk')) ?_
      unfold CacheFull.candidateStep
      rcases simOf redis query k with _ | s
      · exact hacc
      · dsimp only
        split
        · exact hwf k (List.mem_cons_self _ _)
        · exact hacc

theorem candidateLoop_reaches (threshold : ℝ) (redis : RedisStore)
    (tenantID : Nat) (query : List ℝ) (hth : 0 < threshold) :
    ∀ (keys : List Str) (acc : Str × ℝ),
      (∀ k ∈ keys, keyHashSuffix tenantID k ≠ []) → acc.1 = [] → acc.2 = 0 →
      (∃ k ∈ keys, ∃ s, simOf redis query k = some s ∧ threshold ≤ s) →
      (keys.foldl (CacheFull.candidateStep threshold redis tenantID query) acc).1 ≠ [] := by
  intro keys
  induction keys with
  | nil =>
      intro acc _ _ _ hex
      rcases hex with ⟨k, hk, -⟩
      exact absurd hk (List.not_mem_nil k)
  | cons k ks ih =>
      intro acc hwf hacc1 hacc2 hex
      rw [List.foldl_cons]
      rcases hex with ⟨k', hk', s', hs', hts'⟩
      rcases List.mem_cons.mp hk' with rfl | hk's
      · -- the witness is the head: the step must update
        have hupd : CacheFull.candidateStep threshold redis tenantID query acc k' =
            (keyHashSuffix tenantID k', s') := by
          unfold CacheFull.candidateStep
          rw [hs']
          show (if s' > acc.2 ∧ s' ≥ threshold then (keyHashSuffix tenantID k', s') else acc) = _
          rw [if_pos ⟨by rw [hacc2]; linarith, hts'⟩]
        rw [hupd]
        exact candidateLoop_ne_nil_persists threshold redis tenantID query ks _
          (fun x hx => hwf x (List.mem_cons_of_mem _ hx))
          (hwf k' (List.mem_cons_self _ _))
      · -- the witness is in the tail
        unfold CacheFull.candidateStep
        rcases hsk : simOf redis query k with _ | s
        · exact ih acc (fun x hx => hwf x (List.mem_cons_of_mem _ hx)) hacc1 hacc2
            ⟨k', hk's, s', hs', hts'⟩
        · dsimp only
          split
          · exact candidateLoop_ne_nil_persists threshold redis tenantID query ks _
              (fun x hx => hwf x (List.mem_cons_of_mem _ hx))
              (hwf k (List.mem_cons_self _ _))
          · exact ih acc (fun x hx => hwf x (List.mem_cons_of_mem _ hx)) hacc1 hacc2
              ⟨k', hk's, s', hs', hts'⟩

theorem candidateLoop_ne_nil_source (threshold : ℝ) (redis : RedisStore)
    (tenantID : Nat) (query : List ℝ) :
    ∀ (keys : List Str) (acc : Str × ℝ),
      (keys.foldl (CacheFull.candidateStep threshold redis tenantID query) acc).1 ≠ [] →
      acc.1 ≠ [] ∨ ∃ k ∈ keys, ∃ s, simOf redis query k = some s ∧ threshold ≤ s := by
  intro keys
  induction keys with
  | nil => intro acc h; exact Or.inl h
  | cons k ks ih =>
      intro acc h
      rw [List.foldl_cons] at h
      rcases ih _ h with hstep | ⟨k', hk', s', hs', hts'⟩
      · revert hstep
        unfold CacheFull.candidateStep
        rcases hsk : simOf redis query k with _ | s
        · exact fun h => Or.inl h
        · dsimp only
          split
          · rename_i hcond
            exact fun _ => Or.inr ⟨k, List.mem_cons_self _ _, s, hsk, hcond.2⟩
          · exact fun h => Or.inl h
      · exact Or.inr ⟨k', List.mem_cons_of_mem _ hk', s', hs', hts'⟩

/-- A successful exact-stage fetch comes from a row of the current table that
matches both the tenant and the hash of the WHERE clause, and returns that row
with hit_count bumped (response untouched). -/
theorem DB.GetCachedResponse_sound (store : List CacheEntry) (tenantID : Nat)
    (promptHash : Str) (now : Nat) (cached : CacheEntry) (db' : List CacheEntry)
    (h : DB.GetCachedResponse store tenantID promptHash now = some (cached, db')) :
    ∃ c ∈ store, c.tenant_id = tenantID ∧ c.prompt_hash = promptHash ∧
      cached = bumpHit now c := by
  unfold DB.GetCachedResponse at h
  rcases hf : store.find? (rowMatches tenantID promptHash) with _ | e
  · rw [hf] at h
    exact Option.noConfusion h
  · rw [hf] at h
    injection h with h
    injection h with h1 _
    have hmem := List.mem_of_find?_eq_some hf
    have hpred := List.find?_some hf
    unfold rowMatches at hpred
    rw [Bool.and_eq_true, beq_iff_eq, beq_iff_eq] at hpred
    exact ⟨e, hmem, hpred.1, hpred.2, h1.symm⟩

/-- C1: the semantic stage of lookup.  After an exact-stage miss, with the
query embedded and the key scan succeeding, over a store whose scanned keys
carry non-empty hash suffixes: (1) if every computed similarity is below 0.85
the lookup misses (with nil error); (2) if some similarity reaches 0.85 the
candidate loop selects a winner, and the lookup returns the winner's durable
row — response, hit=true, nil error — when the tenant-scoped fetch finds it,
and misses when the winner has no durable row; (3) conversely, a semantic hit
implies some similarity reached 0.85 and the response is the response of a
durable row of this tenant. -/
theorem semantic_stage_threshold (sc : SemanticCache) (st : CacheSt) (tenantID : Nat)
    (prompt : Str) (now : Nat) (q : List ℝ)
    (hth : sc.similarityThreshold = 0.85)
    (hmiss : DB.GetCachedResponse st.db tenantID (sc.hashPrompt prompt) now = none)
    (hembed : sc.embed prompt = some q)
    (hwf : ∀ k ∈ redisKeys st.redis (tenantScanPat tenantID), keyHashSuffix tenantID k ≠ []) :
    ((∀ s ∈ tenantSims st.redis tenantID q, s < 0.85) →
      (CacheFull.GetCachedResponse sc false st tenantID prompt now).1 =
        { response := [], hit := false, errored := false }) ∧
    ((∃ s ∈ tenantSims st.redis tenantID q, 0.85 ≤ s) →
      (DB.GetCachedResponse st.db tenantID
          (CacheFull.bestCandidate 0.85 st.redis tenantID q
            (redisKeys st.redis (tenantScanPat tenantID))).1 now = none →
        (CacheFull.GetCachedResponse sc false st tenantID prompt now).1 =
          { response := [], hit := false, errored := false }) ∧
      (∀ cached db', DB.GetCachedResponse st.db tenantID
          (CacheFull.bestCandidate 0.85 st.redis tenantID q
            (redisKeys st.redis (tenantScanPat tenantID))).1 now = some (cached, db') →
        (CacheFull.GetCachedResponse sc false st tenantID prompt now).1 =
          { response := cached.response, hit := true, errored := false } ∧
        ∃ c ∈ st.db, c.tenant_id = tenantID ∧
          c.prompt_hash = (CacheFull.bestCandidate 0.85 st.redis tenantID q
            (redisKeys st.redis (tenantScanPat tenantID))).1 ∧
          c.response = cached.response)) ∧
    ((CacheFull.GetCachedResponse sc false st tenantID prompt now).1.hit = true →
      (∃ s ∈ tenantSims st.redis tenantID q, 0.85 ≤ s) ∧
      ∃ c ∈ st.db, c.tenant_id = tenantID ∧
        c.response = (CacheFull.GetCachedResponse sc false st tenantID prompt now).1.response) := by
  have hun : ∀ res : LookupResult × CacheSt,
      CacheFull.GetCachedResponse sc false st tenantID prompt now = res ↔
      ((if (CacheFull.bestCandidate sc.similarityThreshold st.redis tenantID q
            (redisKeys st.redis (tenantScanPat tenantID))).1 ≠ [] then
          match DB.GetCachedResponse st.db tenantID
              (CacheFull.bestCandidate sc.similarityThreshold st.redis tenantID q
                (redisKeys st.redis (tenantScanPat tenantID))).1 now with
          | some (cached, db') =>
              (({ response := cached.response, hit := true, errored := false } : LookupResult),
                { st with db := db' })
          | none => (({ response := [], hit := false, errored := false } : LookupResult), st)
        else (({ response := [], hit := false, errored := false } : LookupResult), st)) = res) := by
    intro res
    unfold CacheFull.GetCachedResponse
    simp only [hmiss, hembed, if_neg (show ¬ (false = true) by simp)]
  rw [hth] at hun
  have hiff : (∃ s ∈ tenantSims st.redis tenantID q, 0.85 ≤ s) ↔
      (∃ k ∈ redisKeys st.redis (tenantScanPat tenantID), ∃ s,
        simOf st.redis q k = some s ∧ (0.85 : ℝ) ≤ s) := by
    unfold tenantSims
    constructor
    · rintro ⟨s, hs, hts⟩
      rcases List.mem_filterMap.mp hs with ⟨k, hk, hsk⟩
      exact ⟨k, hk, s, hsk, hts⟩
    · rintro ⟨k, hk, s, hsk, hts⟩
      exact ⟨s, List.mem_filterMap.mpr ⟨k, hk, hsk⟩, hts⟩
  refine ⟨?_, ?_, ?_⟩
  · -- (1) all similarities strictly below the threshold: miss
    intro hall
    have hnil : (CacheFull.bestCandidate 0.85 st.redis tenantID q
        (redisKeys st.redis (tenantScanPat tenantID))).1 = [] := by
      by_contra hne
      rcases candidateLoop_ne_nil_source 0.85 st.redis tenantID q _ _ hne with h | ⟨k, hk, s, hsk, hts⟩
      · exact h rfl
      · have : s ∈ tenantSims st.redis tenantID q :=
          List.mem_filterMap.mpr ⟨k, hk, hsk⟩
        linarith [hall s this]
    have := (hun _).mpr rfl
    rw [if_neg (by simp [hnil])] at this
    rw [this]
  · -- (2) some similarity reaches the threshold
    intro hex
    have hne : (CacheFull.bestCandidate 0.85 st.redis tenantID q
        (redisKeys st.redis (tenantScanPat tenantID))).1 ≠ [] := by
      rcases hiff.mp hex with ⟨k, hk, s, hsk, hts⟩
      exact candidateLoop_reaches 0.85 st.redis tenantID q (by norm_num) _ _
        hwf rfl rfl ⟨k, hk, s, hsk, hts⟩
    constructor
    · intro hfetch
      have := (hun _).mpr rfl
      rw [if_pos hne, hfetch] at this
      rw [this]
    · intro cached db' hfetch
      have := (hun _).mpr rfl
      rw [if_pos hne, hfetch] at this
      rw [this]
      refine ⟨rfl, ?_⟩
      rcases DB.GetCachedResponse_sound _ _ _ _ _ _ hfetch with ⟨c, hc, hct, hch, hcb⟩
      exact ⟨c, hc, hct, hch, by rw [hcb]; rfl⟩
  · -- (3) a semantic hit implies a reached threshold and a tenant-owned row
    intro hhit
    by_cases hne : (CacheFull.bestCandidate 0.85 st.redis tenantID q
        (redisKeys st.redis (tenantScanPat tenantID))).1 ≠ []
    · rcases hfetch : DB.GetCachedResponse st.db tenantID
          (CacheFull.bestCandidate 0.85 st.redis tenantID q
            (redisKeys st.redis (tenantScanPat tenantID))).1 now with _ | cd
      · have := (hun _).mpr rfl
        rw [if_pos hne, hfetch] at this
        rw [this] at hhit
        exact absurd hhit (by simp)
      · rcases cd with ⟨cached, db'⟩
        have := (hun _).mpr rfl
        rw [if_pos hne, hfetch] at this
        constructor
        · rcases candidateLoop_ne_nil_source 0.85 st.redis tenantID q _ _ hne with h | ⟨k, hk, s, hsk, hts⟩
          · exact absurd rfl h
          · exact hiff.mpr ⟨k, hk, s, hsk, hts⟩
        · rcases DB.GetCachedResponse_sound _ _ _ _ _ _ hfetch with ⟨c, hc, hct, _, hcb⟩
          refine ⟨c, hc, hct, ?_⟩
          rw [this, hcb]
          rfl
    · have := (hun _).mpr rfl
      rw [if_neg hne] at this
      rw [this] at hhit
      exact absurd hhit (by simp)

theorem cos_case85 : cosineSimilarity [1,0,0,0,0] [17,7,7,3,2] = 17/20 := by
  unfold cosineSimilarity
  rw [if_neg (by simp)]
  have h1 : zipDot [1,0,0,0,0] [1,0,0,0,0] = 1 := by unfold zipDot; norm_num [List.zip_cons_cons]
  have h2 : zipDot [1,0,0,0,0] [17,7,7,3,2] = 17 := by unfold zipDot; norm_num [List.zip_cons_cons]
  have h3 : zipDot [17,7,7,3,2] [17,7,7,3,2] = 400 := by unfold zipDot; norm_num [List.zip_cons_cons]
  simp only [h1, h2, h3]
  rw [if_neg (by norm_num)]
  rw [Real.sqrt_one, show (400:ℝ) = 20^2 by norm_num, Real.sqrt_sq (by norm_num)]
  norm_num

theorem cos_case8499 : cosineSimilarity [1,0,0,0,0] [8499, 5269, 67, 10, 7] = 8499/10000 := by
  unfold cosineSimilarity
  rw [if_neg (by simp)]
  have h1 : zipDot [1,0,0,0,0] [1,0,0,0,0] = 1 := by unfold zipDot; norm_num [List.zip_cons_cons]
  have h2 : zipDot [1,0,0,0,0] [8499, 5269, 67, 10, 7] = 8499 := by
    unfold zipDot; norm_num [List.zip_cons_cons]
  have h3 : zipDot [8499, 5269, 67, 10, 7] [8499, 5269, 67, 10, 7] = 100000000 := by
    unfold zipDot; norm_num [List.zip_cons_cons]
  simp only [h1, h2, h3]
  rw [if_neg (by norm_num)]
  rw [Real.sqrt_one, show (100000000:ℝ) = 10000^2 by norm_num, Real.sqrt_sq (by norm_num)]
  norm_num

/-- Witness for C1 at the similarity boundary: with one cached entry whose
stored vector has cosine similarity exactly 0.85 against the query embedding,
the semantic stage hits and returns the durable row's response; with a vector
at similarity exactly 0.8499 it misses. -/
theorem semantic_stage_threshold_witness :
    (CacheFull.GetCachedResponse ⟨fun _ => "qh".data, fun _ => some [1,0,0,0,0], 0.85⟩ false
        ⟨[⟨0, 1, "ch".data, "p0".data, "R".data, false, 0, 0, 0⟩],
         [⟨embeddingKey 1 "ch".data, .vec [17,7,7,3,2], 604800⟩]⟩ 1 "q".data 0).1 =
      { response := "R".data, hit := true, errored := false } ∧
    (CacheFull.GetCachedResponse ⟨fun _ => "qh".data, fun _ => some [1,0,0,0,0], 0.85⟩ false
        ⟨[⟨0, 1, "ch".data, "p0".data, "R".data, false, 0, 0, 0⟩],
         [⟨embeddingKey 1 "ch".data, .vec [8499, 5269, 67, 10, 7], 604800⟩]⟩ 1 "q".data 0).1 =
      { response := [], hit := false, errored := false } := by
  constructor
  · obtain ⟨-, h2, -⟩ := semantic_stage_threshold
      ⟨fun _ => "qh".data, fun _ => some [1,0,0,0,0], 0.85⟩
      ⟨[⟨0, 1, "ch".data, "p0".data, "R".data, false, 0, 0, 0⟩],
       [⟨embeddingKey 1 "ch".data, .vec [17,7,7,3,2], 604800⟩]⟩
      1 "q".data 0 [1,0,0,0,0] rfl (by decide) rfl (by decide)
    have hex : ∃ s ∈ tenantSims
        [⟨embeddingKey 1 "ch".data, RedisVal.vec [17,7,7,3,2], 604800⟩] 1 [1,0,0,0,0],
        (0.85 : ℝ) ≤ s := by
      refine ⟨cosineSimilarity [1,0,0,0,0] [17,7,7,3,2], List.mem_filterMap.mpr
        ⟨embeddingKey 1 "ch".data, by decide, rfl⟩, ?_⟩
      rw [cos_case85]
      norm_num
    have hbest : (CacheFull.bestCandidate 0.85
        [⟨embeddingKey 1 "ch".data, RedisVal.vec [17,7,7,3,2], 604800⟩] 1 [1,0,0,0,0]
        (redisKeys [⟨embeddingKey 1 "ch".data, RedisVal.vec [17,7,7,3,2], 604800⟩]
          (tenantScanPat 1))).1 = "ch".data := by
      rw [show redisKeys [⟨embeddingKey 1 "ch".data, RedisVal.vec [17,7,7,3,2], 604800⟩]
          (tenantScanPat 1) = [embeddingKey 1 "ch".data] from by decide]
      unfold CacheFull.bestCandidate
      rw [List.foldl_cons, List.foldl_nil]
      unfold CacheFull.candidateStep
      rw [show simOf [⟨embeddingKey 1 "ch".data, RedisVal.vec [17,7,7,3,2], 604800⟩]
          [1,0,0,0,0] (embeddingKey 1 "ch".data) =
          some (cosineSimilarity [1,0,0,0,0] [17,7,7,3,2]) from rfl]
      show (if cosineSimilarity [1,0,0,0,0] [17,7,7,3,2] > (([], (0:ℝ)) : Str × ℝ).2 ∧
          cosineSimilarity [1,0,0,0,0] [17,7,7,3,2] ≥ 0.85 then
          (keyHashSuffix 1 (embeddingKey 1 "ch".data),
            cosineSimilarity [1,0,0,0,0] [17,7,7,3,2])
        else (([], (0:ℝ)) : Str × ℝ)).1 = "ch".data
      rw [if_pos (by rw [cos_case85]; norm_num)]
      decide
    have hfetch : DB.GetCachedResponse
        [⟨0, 1, "ch".data, "p0".data, "R".data, false, 0, 0, 0⟩] 1
        (CacheFull.bestCandidate 0.85
          [⟨embeddingKey 1 "ch".data, RedisVal.vec [17,7,7,3,2], 604800⟩] 1 [1,0,0,0,0]
          (redisKeys [⟨embeddingKey 1 "ch".data, RedisVal.vec [17,7,7,3,2], 604800⟩]
            (tenantScanPat 1))).1 0 =
        some (⟨0, 1, "ch".data, "p0".data, "R".data, false, 1, 0, 0⟩,
              [⟨0, 1, "ch".data, "p0".data, "R".data, false, 1, 0, 0⟩]) := by
      rw [hbest]
      decide
    exact ((h2 hex).2 _ _ hfetch).1
  · obtain ⟨h1, -, -⟩ := semantic_stage_threshold
      ⟨fun _ => "qh".data, fun _ => some [1,0,0,0,0], 0.85⟩
      ⟨[⟨0, 1, "ch".data, "p0".data, "R".data, false, 0, 0, 0⟩],
       [⟨embeddingKey 1 "ch".data, .vec [8499, 5269, 67, 10, 7], 604800⟩]⟩
      1 "q".data 0 [1,0,0,0,0] rfl (by decide) rfl (by decide)
    apply h1
    intro s hs
    rw [show tenantSims
        [⟨embeddingKey 1 "ch".data, RedisVal.vec [8499, 5269, 67, 10, 7], 604800⟩] 1
        [1,0,0,0,0] = [cosineSimilarity [1,0,0,0,0] [8499, 5269, 67, 10, 7]] from by
      unfold tenantSims
      rw [show redisKeys [⟨embeddingKey 1 "ch".data,
          RedisVal.vec [8499, 5269, 67, 10, 7], 604800⟩] (tenantScanPat 1) =
          [embeddingKey 1 "ch".data] from by decide]
      rfl] at hs
    rw [List.mem_singleton] at hs
    subst hs
    rw [cos_case8499]
    norm_num

/-! ### The dual-store invariant -/

theorem exists_hash_map_preserve (f : CacheEntry → CacheEntry)
    (hf : ∀ c, (f c).prompt_hash = c.prompt_hash) (db : List CacheEntry) (h' : Str)
    (hex : ∃ c ∈ db, c.prompt_hash = h') : ∃ c ∈ db.map f, c.prompt_hash = h' := by
  rcases hex with ⟨c, hc, hch⟩
  exact ⟨f c, List.mem_map_of_mem f hc, by rw [hf c, hch]⟩

theorem StoreCachedResponse_hash_monotone (db : List CacheEntry) (tenantID : Nat)
    (promptHash prompt response : Str) (emb : Bool) (now : Nat) (h' : Str)
    (hex : ∃ c ∈ db, c.prompt_hash = h') :
    ∃ c ∈ DB.StoreCachedResponse db tenantID promptHash prompt response emb now,
      c.prompt_hash = h' := by
  unfold DB.StoreCachedResponse
  split
  · exact exists_hash_map_preserve _ (fun c => by unfold conflictUpdate; split <;> rfl) db h' hex
  · rcases hex with ⟨c, hc, hch⟩
    exact ⟨c, List.mem_append_left _ hc, hch⟩

theorem StoreCachedResponse_has_hash (db : List CacheEntry) (tenantID : Nat)
    (promptHash prompt response : Str) (emb : Bool) (now : Nat) :
    ∃ c ∈ DB.StoreCachedResponse db tenantID promptHash prompt response emb now,
      c.prompt_hash = promptHash := by
  unfold DB.StoreCachedResponse
  split
  · rename_i hany
    rcases List.any_eq_true.mp hany with ⟨c, hc, hch⟩
    refine ⟨conflictUpdate response now c, ?_, ?_⟩
    · have : conflictUpdate response now c =
          (fun e => if hashMatches promptHash e then conflictUpdate response now e else e) c := by
        simp [hch]
      rw [this]
      exact List.mem_map_of_mem _ hc
    · unfold hashMatches at hch
      rw [beq_iff_eq] at hch
      exact hch
  · exact ⟨_, List.mem_append_right _ (List.mem_singleton.mpr rfl), rfl⟩

theorem GetCachedResponse_hash_monotone (db : List CacheEntry) (tenantID : Nat)
    (promptHash : Str) (now : Nat) (cached : CacheEntry) (db' : List CacheEntry)
    (hfe : DB.GetCachedResponse db tenantID promptHash now = some (cached, db'))
    (h' : Str) (hex : ∃ c ∈ db, c.prompt_hash = h') : ∃ c ∈ db', c.prompt_hash = h' := by
  unfold DB.GetCachedResponse at hfe
  rcases hf : db.find? (rowMatches tenantID promptHash) with _ | e
  · rw [hf] at hfe
    exact Option.noConfusion hfe
  · rw [hf] at hfe
    injection hfe with hfe
    injection hfe with _ h2
    rw [← h2]
    exact exists_hash_map_preserve _ (fun c => by unfold bumpHit; split <;> rfl) db h' hex

theorem EmbInv_of_parts (st st' : CacheSt) (hr : st'.redis = st.redis)
    (hdb : ∀ h', (∃ c ∈ st.db, c.prompt_hash = h') → ∃ c ∈ st'.db, c.prompt_hash = h')
    (hinv : EmbInv st) : EmbInv st' := by
  intro e he
  rw [hr] at he
  obtain ⟨t, h, hk, hex⟩ := hinv e he
  exact ⟨t, h, hk, hdb h hex⟩

/-- C2 (amended): the dual-store invariant — every volatile embedding entry
sits at a key whose hash portion has a durable row — is preserved by the
fuller cache variant's admission (the durable upsert precedes the embedding
write, which carries the freshly upserted hash) and by its lookup (which only
bumps durable rows and never writes the volatile store). -/
theorem embedding_invariant_preserved (sc : SemanticCache) (st : CacheSt)
    (tenantID : Nat) (prompt response : Str) (now : Nat) (dbFail scanErr : Bool)
    (hinv : EmbInv st) :
    (∀ st', CacheFull.StoreCachedResponse sc dbFail st tenantID prompt response now =
        some st' → EmbInv st') ∧
    EmbInv (CacheFull.GetCachedResponse sc scanErr st tenantID prompt now).2 := by
  constructor
  · intro st' hst'
    simp only [CacheFull.StoreCachedResponse] at hst'
    rcases dbFail with _ | _
    · rcases hemb : sc.embed prompt with _ | embedding
      · rw [hemb] at hst'
        simp only [if_neg (show ¬(false = true) by simp)] at hst'
        injection hst' with hst'
        rw [← hst']
        refine EmbInv_of_parts st _ rfl ?_ hinv
        intro h' hex
        exact StoreCachedResponse_hash_monotone _ _ _ _ _ _ _ _ hex
      · rw [hemb] at hst'
        simp only [if_neg (show ¬(false = true) by simp)] at hst'
        injection hst' with hst'
        rw [← hst']
        intro e he
        rcases List.mem_append.mp he with hl | hr
        · obtain ⟨t, h, hk, hex⟩ := hinv e (List.mem_of_mem_filter hl)
          exact ⟨t, h, hk, StoreCachedResponse_hash_monotone _ _ _ _ _ _ _ _ hex⟩
        · rw [List.mem_singleton.mp hr]
          exact ⟨tenantID, sc.hashPrompt prompt, rfl,
            StoreCachedResponse_has_hash _ _ _ _ _ _ _⟩
    · simp only [if_pos rfl] at hst'
      exact Option.noConfusion hst'
  · simp only [CacheFull.GetCachedResponse]
    rcases hfe : DB.GetCachedResponse st.db tenantID (sc.hashPrompt prompt) now with _ | cd
    · dsimp only
      rcases hemb : sc.embed prompt with _ | q
      · exact hinv
      · dsimp only
        rcases scanErr with _ | _
        · rw [if_neg (show ¬(false = true) by simp)]
          by_cases hb : (CacheFull.bestCandidate sc.similarityThreshold st.redis tenantID q
              (redisKeys st.redis (tenantScanPat tenantID))).1 ≠ []
          · rw [if_pos hb]
            rcases hfetch : DB.GetCachedResponse st.db tenantID
                (CacheFull.bestCandidate sc.similarityThreshold st.redis tenantID q
                  (redisKeys st.redis (tenantScanPat tenantID))).1 now with _ | cd2
            · exact hinv
            · rcases cd2 with ⟨cached, db'⟩
              refine EmbInv_of_parts st _ rfl ?_ hinv
              intro h' hex
              exact GetCachedResponse_hash_monotone _ _ _ _ _ _ hfetch _ hex
          · rw [if_neg hb]
            exact hinv
        · rw [if_pos rfl]
          exact hinv
    · rcases cd with ⟨cached, db'⟩
      dsimp only
      refine EmbInv_of_parts st _ rfl ?_ hinv
      intro h' hex
      exact GetCachedResponse_hash_monotone _ _ _ _ _ _ hfe _ hex

/-- C2 (counterexample): the simplified cache's lookup
(internal/cache/semantic.go GetCachedResponse) writes the *query's* embedding
to the volatile store on an exact-stage miss, with no durable row for that
hash: starting from empty stores, one lookup leaves an embedding entry whose
hash has no durable CacheEntry, so lookup is an operation of the cache that
breaks the claimed invariant. -/
theorem simple_lookup_breaks_embedding_invariant :
    (CacheSimple.GetCachedResponse ⟨fun _ => "h".data, fun _ => some [], 0.85⟩
        { db := [], redis := [] } 1 "p".data 0).2.db = [] ∧
    (∃ e ∈ (CacheSimple.GetCachedResponse ⟨fun _ => "h".data, fun _ => some [], 0.85⟩
        { db := [], redis := [] } 1 "p".data 0).2.redis,
      e.key = embeddingKey 1 "h".data) ∧
    ¬ EmbInv (CacheSimple.GetCachedResponse ⟨fun _ => "h".data, fun _ => some [], 0.85⟩
        { db := [], redis := [] } 1 "p".data 0).2 := by
  refine ⟨rfl, ⟨⟨embeddingKey 1 "h".data, RedisVal.vec [], 0⟩, ?_, rfl⟩, ?_⟩
  · show RedisEntry.mk (embeddingKey 1 "h".data) (RedisVal.vec []) 0 ∈
      [RedisEntry.mk (embeddingKey 1 "h".data) (RedisVal.vec []) 0]
    exact List.mem_singleton.mpr rfl
  · intro hinv
    obtain ⟨t, h, -, c, hc, -⟩ := hinv ⟨embeddingKey 1 "h".data, RedisVal.vec [], 0⟩
      (show _ ∈ [RedisEntry.mk (embeddingKey 1 "h".data) (RedisVal.vec []) 0] from
        List.mem_singleton.mpr rfl)
    exact absurd hc (List.not_mem_nil c)

/-- Witness for the amended C2 at a concrete input: after one admission on
empty stores the resulting state satisfies the invariant. -/
theorem embedding_invariant_preserved_witness :
    EmbInv { db := [⟨0, 1, "h".data, "p".data, "r".data, false, 0, 0, 0⟩],
             redis := [⟨embeddingKey 1 "h".data, RedisVal.vec [],
               CacheFull.embeddingStoreTTLns⟩] } := by
  have h := (embedding_invariant_preserved ⟨fun _ => "h".data, fun _ => some [], 0.85⟩
    { db := [], redis := [] } 1 "p".data "r".data 0 false false
    (by intro e he; exact absurd he (List.not_mem_nil e))).1
  exact h _ rfl

/-! ### Error behaviour of the semantic stage -/

theorem simOf_none_of_junk (redis : RedisStore) (q : List ℝ) (k : Str)
    (hjunk : ∀ e ∈ redis, e.val = RedisVal.junk) : simOf redis q k = none := by
  unfold simOf
  rcases hg : redisGet redis k with _ | v
  · rfl
  · have hv : v = RedisVal.junk := by
      unfold redisGet at hg
      rcases hf : redis.find? (fun e => e.key == k) with _ | e
      · rw [hf] at hg
        exact Option.noConfusion hg
      · rw [hf, Option.map_some'] at hg
        injection hg with hg
        rw [← hg]
        exact hjunk e (List.mem_of_find?_eq_some hf)
    rw [hv]

/-- C3 (amended): error behaviour of the semantic stage.  After an exact-stage
miss, (1) an embedding-service failure returns a *non-nil* error (the code
wraps and returns it); (2) a store scan error returns a miss with nil error;
(3) decode failures are skipped, so a scan over undecodable values returns a
miss with nil error. -/
theorem lookup_error_behaviour (sc : SemanticCache) (st : CacheSt) (tenantID : Nat)
    (prompt : Str) (now : Nat) (scanErr : Bool)
    (hmiss : DB.GetCachedResponse st.db tenantID (sc.hashPrompt prompt) now = none) :
    (sc.embed prompt = none →
      (CacheFull.GetCachedResponse sc scanErr st tenantID prompt now).1 =
        { response := [], hit := false, errored := true }) ∧
    (∀ q, sc.embed prompt = some q → scanErr = true →
      (CacheFull.GetCachedResponse sc scanErr st tenantID prompt now).1 =
        { response := [], hit := false, errored := false }) ∧
    (∀ q, sc.embed prompt = some q → scanErr = false →
      (∀ e ∈ st.redis, e.val = RedisVal.junk) →
      (CacheFull.GetCachedResponse sc scanErr st tenantID prompt now).1 =
        { response := [], hit := false, errored := false }) := by
  refine ⟨?_, ?_, ?_⟩
  · intro hemb
    simp only [CacheFull.GetCachedResponse, hmiss, hemb]
  · intro q hemb hscan
    subst hscan
    simp only [CacheFull.GetCachedResponse, hmiss, hemb, if_true]
  · intro q hemb hscan hjunk
    subst hscan
    simp only [CacheFull.GetCachedResponse, hmiss, hemb,
      if_neg (show ¬(false = true) by simp)]
    have hnil : (CacheFull.bestCandidate sc.similarityThreshold st.redis tenantID q
        (redisKeys st.redis (tenantScanPat tenantID))).1 = [] := by
      by_contra hne
      rcases candidateLoop_ne_nil_source sc.similarityThreshold st.redis tenantID q _ _ hne
        with h | ⟨k, hk, s, hsk, -⟩
      · exact h rfl
      · rw [simOf_none_of_junk st.redis q k hjunk] at hsk
        exact Option.noConfusion hsk
    rw [if_neg (by simp [hnil])]

/-- C3 (counterexample): an embedding-service failure makes lookup return a
non-nil error — not the claimed `("", false, nil)` — in the semantic stage. -/
theorem lookup_embed_failure_errors :
    (CacheFull.GetCachedResponse ⟨fun _ => "h".data, fun _ => none, 0.85⟩ false
        { db := [], redis := [] } 1 "p".data 0).1 =
      { response := [], hit := false, errored := true } := rfl

/-- Witness for the amended C3 at concrete inputs: an embedding failure yields
the non-nil error; a scan error and an all-junk scan both yield the nil-error
miss. -/
theorem lookup_error_behaviour_witness :
    (CacheFull.GetCachedResponse ⟨fun _ => "h".data, fun _ => none, 0.85⟩ false
        { db := [], redis := [] } 1 "p".data 0).1 =
      { response := [], hit := false, errored := true } ∧
    (CacheFull.GetCachedResponse ⟨fun _ => "h".data, fun _ => some [], 0.85⟩ true
        { db := [], redis := [] } 1 "p".data 0).1 =
      { response := [], hit := false, errored := false } ∧
    (CacheFull.GetCachedResponse ⟨fun _ => "h".data, fun _ => some [], 0.85⟩ false
        { db := [], redis := [⟨embeddingKey 1 "x".data, RedisVal.junk, 0⟩] } 1
        "p".data 0).1 =
      { response := [], hit := false, errored := false } := by
  refine ⟨?_, ?_, ?_⟩
  · exact (lookup_error_behaviour _ _ _ _ _ _ (by decide)).1 rfl
  · exact (lookup_error_behaviour _ _ _ _ _ _ (by decide)).2.1 [] rfl rfl
  · refine (lookup_error_behaviour _ _ _ _ _ _ (by decide)).2.2 [] rfl rfl ?_
    intro e he
    rw [List.mem_singleton] at he
    rw [he]

/-! ### The embedding TTL -/

/-- C7: the expiration the admission path hands to redis Set is the untyped
constant 7*24*60*60 used as a Go time.Duration, i.e. 604800 *nanoseconds*
(about 0.6 ms) — not 7 days (604800e9 ns) as the code's own comment
"Store with 7-day expiration" intends; the simplified variant passes 0
(no expiry).  Evaluated here on a concrete admission. -/
theorem embedding_ttl_is_not_seven_days :
    (∃ st', CacheFull.StoreCachedResponse ⟨fun _ => "h".data, fun _ => some [], 0.85⟩
        false { db := [], redis := [] } 1 "p".data "r".data 0 = some st' ∧
      st'.redis = [⟨embeddingKey 1 "h".data, RedisVal.vec [],
        CacheFull.embeddingStoreTTLns⟩]) ∧
    CacheFull.embeddingStoreTTLns = 604800 ∧
    CacheFull.embeddingStoreTTLns ≠ 7 * 24 * 60 * 60 * 1000000000 := by
  exact ⟨⟨_, rfl, rfl⟩, rfl, by decide⟩

/-! ### Tenant isolation of lookups -/

/-- C10: whenever lookup returns a hit — through the exact stage or the
semantic stage — the response is the response of a durable row whose
tenant_id is the caller's tenant: both hit paths fetch through the
tenant-scoped WHERE clause, so a lookup never returns another tenant's row. -/
theorem lookup_tenant_isolation (sc : SemanticCache) (scanErr : Bool) (st : CacheSt)
    (tenantID : Nat) (prompt : Str) (now : Nat)
    (hhit : (CacheFull.GetCachedResponse sc scanErr st tenantID prompt now).1.hit = true) :
    ∃ c ∈ st.db, c.tenant_id = tenantID ∧
      c.response = (CacheFull.GetCachedResponse sc scanErr st tenantID prompt now).1.response := by
  simp only [CacheFull.GetCachedResponse] at hhit ⊢
  rcases hfe : DB.GetCachedResponse st.db tenantID (sc.hashPrompt prompt) now with _ | cd
  · rw [hfe] at hhit
    dsimp only at hhit ⊢
    rcases hemb : sc.embed prompt with _ | q
    · rw [hemb] at hhit
      simp at hhit
    · rw [hemb] at hhit
      dsimp only at hhit ⊢
      rcases scanErr with _ | _
      · rw [if_neg (show ¬(false = true) by simp)] at hhit ⊢
        by_cases hb : (CacheFull.bestCandidate sc.similarityThreshold st.redis tenantID q
            (redisKeys st.redis (tenantScanPat tenantID))).1 ≠ []
        · rw [if_pos hb] at hhit ⊢
          rcases hfetch : DB.GetCachedResponse st.db tenantID
              (CacheFull.bestCandidate sc.similarityThreshold st.redis tenantID q
                (redisKeys st.redis (tenantScanPat tenantID))).1 now with _ | cd2
          · rw [hfetch] at hhit
            simp at hhit
          · rcases cd2 with ⟨cached, db'⟩
            rw [hfetch] at hhit
            dsimp only at hhit ⊢
            rcases DB.GetCachedResponse_sound _ _ _ _ _ _ hfetch with ⟨c, hc, hct, -, hcb⟩
            exact ⟨c, hc, hct, by rw [hcb]; rfl⟩
        · rw [if_neg hb] at hhit
          simp at hhit
      · rw [if_pos rfl] at hhit
        simp at hhit
  · rcases cd with ⟨cached, db'⟩
    rw [hfe] at hhit
    dsimp only at hhit ⊢
    rcases DB.GetCachedResponse_sound _ _ _ _ _ _ hfe with ⟨c, hc, hct, -, hcb⟩
    exact ⟨c, hc, hct, by rw [hcb]; rfl⟩

/-- Witness for C10 at a concrete input: an exact-stage hit for tenant 1
returns the response of tenant 1's own durable row. -/
theorem lookup_tenant_isolation_witness :
    (CacheFull.GetCachedResponse ⟨fun _ => "H".data, fun _ => none, 0.85⟩ false
        { db := [⟨0, 1, "H".data, "p".data, "R".data, false, 3, 0, 0⟩], redis := [] }
        1 "p".data 9).1.hit = true ∧
    ∃ c ∈ [(⟨0, 1, "H".data, "p".data, "R".data, false, 3, 0, 0⟩ : CacheEntry)],
      c.tenant_id = 1 ∧ c.response =
        (CacheFull.GetCachedResponse ⟨fun _ => "H".data, fun _ => none, 0.85⟩ false
          { db := [⟨0, 1, "H".data, "p".data, "R".data, false, 3, 0, 0⟩], redis := [] }
          1 "p".data 9).1.response :=
  ⟨rfl, lookup_tenant_isolation ⟨fun _ => "H".data, fun _ => none, 0.85⟩ false
    { db := [⟨0, 1, "H".data, "p".data, "R".data, false, 3, 0, 0⟩], redis := [] }
    1 "p".data 9 rfl⟩

/-! ### The retry loop -/

/-- C5 (amended): the retry loop performs between 1 and 3 attempts; retry N is
preceded by a linear back-off of N * 500 ms; the final status is the last
attempt's captured status; every non-final attempt had a captured status
outside [200, 500) — so 4xx statuses are never retried — and an early stop
means the final status lies in [200, 500).  Consequently any captured status
outside [200, 500), including the 504 the error handler writes on timeout and
the 502 it writes on cancellation and transport errors, IS retried. -/
theorem proxyRetry_characterization (outcome : Nat → UpstreamOutcome) :
    1 ≤ (proxyRetry outcome).attempts ∧ (proxyRetry outcome).attempts ≤ maxRetries + 1 ∧
    (proxyRetry outcome).status = capturedStatus (outcome ((proxyRetry outcome).attempts - 1)) ∧
    (proxyRetry outcome).sleepsMs =
      (List.range ((proxyRetry outcome).attempts - 1)).map (fun i => (i + 1) * 500) ∧
    (∀ i, i + 1 < (proxyRetry outcome).attempts →
      ¬(200 ≤ capturedStatus (outcome i) ∧ capturedStatus (outcome i) < 500)) ∧
    ((proxyRetry outcome).attempts < maxRetries + 1 →
      200 ≤ (proxyRetry outcome).status ∧ (proxyRetry outcome).status < 500) := by
  have unf : proxyRetry outcome =
      (if 200 ≤ capturedStatus (outcome 0) ∧ capturedStatus (outcome 0) < 500 then
        { status := capturedStatus (outcome 0), attempts := 1, sleepsMs := [] }
      else if 200 ≤ capturedStatus (outcome 1) ∧ capturedStatus (outcome 1) < 500 then
        { status := capturedStatus (outcome 1), attempts := 2, sleepsMs := [500] }
      else
        { status := capturedStatus (outcome 2), attempts := 3,
          sleepsMs := [500, 1000] }) := by
    unfold proxyRetry maxRetries
    simp only [proxyLoop]
    norm_num
  rcases Decidable.em (200 ≤ capturedStatus (outcome 0) ∧ capturedStatus (outcome 0) < 500)
    with h0 | h0
  · rw [unf, if_pos h0]
    dsimp only
    refine ⟨by decide, by decide, rfl, by decide, ?_, fun _ => h0⟩
    intro i hi
    omega
  · rcases Decidable.em (200 ≤ capturedStatus (outcome 1) ∧ capturedStatus (outcome 1) < 500)
      with h1 | h1
    · rw [unf, if_neg h0, if_pos h1]
      dsimp only
      refine ⟨by decide, by decide, rfl, by decide, ?_, fun _ => h1⟩
      intro i hi
      have hz : i = 0 := by omega
      subst hz
      exact h0
    · rw [unf, if_neg h0, if_neg h1]
      dsimp only
      refine ⟨by decide, by decide, rfl, by decide, ?_, by intro h; simp [maxRetries] at h⟩
      intro i hi
      rcases i with _ | i
      · exact h0
      · have hz : i = 0 := by omega
        subst hz
        exact h1

/-- C5 (counterexample): when every attempt hits the inbound deadline the
error handler captures 504, which lies outside [200, 500), so the loop retries
twice — 3 attempts with back-offs of 500 ms and 1000 ms — although the claim
says a timeout against the inbound deadline is not retried. -/
theorem retry_on_timeout_counterexample :
    proxyRetry (fun _ => .errDeadline) =
      { status := 504, attempts := 3, sleepsMs := [500, 1000] } ∧
    (proxyRetry (fun _ => .errDeadline)).attempts ≠ 1 := by
  exact ⟨by decide, by decide⟩

/-- Witness for the amended C5 at a concrete input: one connection-refused
attempt (captured 502) followed by a 204 stops after the second attempt with
one 500 ms back-off, and the early stop implies the final status lies in
[200, 500). -/
theorem proxyRetry_characterization_witness :
    (proxyRetry (fun n => if n = 0 then .errConnRefused else .status 204)).attempts = 2 ∧
    (proxyRetry (fun n => if n = 0 then .errConnRefused else .status 204)).sleepsMs = [500] ∧
    200 ≤ (proxyRetry (fun n => if n = 0 then .errConnRefused else .status 204)).status ∧
    (proxyRetry (fun n => if n = 0 then .errConnRefused else .status 204)).status < 500 := by
  have h := proxyRetry_characterization (fun n => if n = 0 then .errConnRefused else .status 204)
  exact ⟨by decide, by decide, h.2.2.2.2.2 (by decide)⟩

/-! ### Access logging -/

/-- C4 (amended): exactly the two terminal states that serve a payload — the
cache-hit 200 and the proxied response — append one access-log record, and
that record carries the request's path, method and the final status; every
other terminal state (401, 404, the quota-error 500, 429, 400, and the
invalid-backend-URL 500) appends no record. -/
theorem access_logging (w : World) (r : Request) :
    ((serveHTTP w r).xCacheHit = true ∨ (serveHTTP w r).proxied = true →
      (serveHTTP w r).logs.length = 1 ∧
      ∀ rec ∈ (serveHTTP w r).logs, rec.endpoint = r.path ∧ rec.method = r.method ∧
        rec.status_code = (serveHTTP w r).status) ∧
    ((serveHTTP w r).xCacheHit = false ∧ (serveHTTP w r).proxied = false →
      (serveHTTP w r).logs = []) := by
  simp only [serveHTTP]
  repeat' split
  all_goals first
    | exact ⟨by rintro (h | h) <;> simp at h, fun _ => rfl⟩
    | (refine ⟨fun _ => ⟨rfl, ?_⟩, ?_⟩
       · intro rec hrec
         rw [List.mem_singleton] at hrec
         subst hrec
         exact ⟨rfl, rfl, rfl⟩
       · rintro ⟨h1, h2⟩
         simp at h1 h2)

/-- C4 (counterexample): a request rejected by the quota check — a 429
terminal after tenant resolution succeeded — appends no access-log record,
although the claim requires exactly one. -/
theorem rate_limited_request_logs_nothing :
    (serveHTTP
        ⟨some ⟨1, "k".data⟩, fun _ => some ⟨1, "T".data, "k".data, 10, "u".data⟩, some false,
         true, true, fun _ _ => ⟨[], false, false⟩, fun _ => .status 200, 7, 5⟩
        ⟨"/api/x".data, "GET".data, false, 0, none, 0⟩).status = 429 ∧
    (serveHTTP
        ⟨some ⟨1, "k".data⟩, fun _ => some ⟨1, "T".data, "k".data, 10, "u".data⟩, some false,
         true, true, fun _ _ => ⟨[], false, false⟩, fun _ => .status 200, 7, 5⟩
        ⟨"/api/x".data, "GET".data, false, 0, none, 0⟩).logs = [] :=
  ⟨rfl, rfl⟩

/-- Witness for the amended C4 at a concrete input: a proxied run appends
exactly one record carrying the request's path, method and final status. -/
theorem access_logging_witness :
    (serveHTTP
        ⟨some ⟨1, "k".data⟩, fun _ => some ⟨1, "T".data, "k".data, 10, "u".data⟩, some true,
         true, true, fun _ _ => ⟨[], false, false⟩, fun _ => .status 200, 7, 5⟩
        ⟨"/api/x".data, "GET".data, false, 0, none, 0⟩).logs.length = 1 ∧
    ∀ rec ∈ (serveHTTP
        ⟨some ⟨1, "k".data⟩, fun _ => some ⟨1, "T".data, "k".data, 10, "u".data⟩, some true,
         true, true, fun _ _ => ⟨[], false, false⟩, fun _ => .status 200, 7, 5⟩
        ⟨"/api/x".data, "GET".data, false, 0, none, 0⟩).logs,
      rec.endpoint = "/api/x".data ∧ rec.method = "GET".data ∧
        rec.status_code = (serveHTTP
          ⟨some ⟨1, "k".data⟩, fun _ => some ⟨1, "T".data, "k".data, 10, "u".data⟩, some true,
           true, true, fun _ _ => ⟨[], false, false⟩, fun _ => .status 200, 7, 5⟩
          ⟨"/api/x".data, "GET".data, false, 0, none, 0⟩).status :=
  (access_logging
    ⟨some ⟨1, "k".data⟩, fun _ => some ⟨1, "T".data, "k".data, 10, "u".data⟩, some true,
     true, true, fun _ _ => ⟨[], false, false⟩, fun _ => .status 200, 7, 5⟩
    ⟨"/api/x".data, "GET".data, false, 0, none, 0⟩).1 (Or.inr rfl)

/-! ### Prompt extraction order -/

theorem promptOrQuestion_eq_spec (fields : List (Str × Json)) :
    promptOrQuestion fields =
      ((specPromptRule fields).or (specQuestionRule fields)).getD [] := by
  have hq' : (match jGet fields "question".data with
      | some (.str q) => q
      | _ => ([] : Str)) = (specQuestionRule fields).getD [] := by
    unfold specQuestionRule
    rcases hq : jGet fields "question".data with _ | jq
    · rfl
    · cases jq <;> rfl
  unfold promptOrQuestion specPromptRule
  rcases hp : jGet fields "prompt".data with _ | jp
  · exact hq'
  · cases jp <;> first | rfl | exact hq'

/-- C9: prompt extraction follows the spec's ordered rules with the first
match winning — the last element's string content of a non-empty messages
array, else the string field prompt, else the string field question, else
empty — and when the result is empty the pipeline skips the cache without
error (the cache is never consulted). -/
theorem extractPrompt_spec_order :
    (∀ parsed, extractPromptFromBody parsed = specExtractPrompt parsed) ∧
    (∀ w r, extractPromptFromBody r.bodyJson = [] →
      (serveHTTP w r).cacheConsulted = false) := by
  constructor
  · intro parsed
    unfold extractPromptFromBody specExtractPrompt specMessagesRule
    rcases parsed with _ | j
    · rfl
    · cases j
      case obj fields =>
        dsimp only
        rcases hm : jGet fields "messages".data with _ | jm
        · rw [promptOrQuestion_eq_spec]
          rfl
        · cases jm
          case arr messages =>
            dsimp only
            rcases messages with _ | ⟨m0, ms⟩
            · rw [if_neg (show ¬ (([] : List Json).length > 0) by simp),
                if_neg (show ¬ (([] : List Json).length ≠ 0) by simp)]
              rw [promptOrQuestion_eq_spec]
              rfl
            · rw [if_pos (show (m0 :: ms).length > 0 by simp),
                if_pos (show (m0 :: ms).length ≠ 0 by simp)]
              rcases hl : (m0 :: ms).getLast? with _ | lm
              · rw [promptOrQuestion_eq_spec]
                rfl
              · cases lm
                case obj lastMsg =>
                  dsimp only
                  rcases hc : jGet lastMsg "content".data with _ | jc
                  · rw [promptOrQuestion_eq_spec]
                    rfl
                  · cases jc <;> first | rfl | (rw [promptOrQuestion_eq_spec]; rfl)
                all_goals (rw [promptOrQuestion_eq_spec]; rfl)
          all_goals (rw [promptOrQuestion_eq_spec]; rfl)
      all_goals rfl
  · intro w r hpr
    simp only [serveHTTP]
    repeat' split
    all_goals first
      | rfl
      | (rename_i hcond
         rw [hpr] at hcond
         simp at hcond)
      | simp [hpr]

/-- Witness for C9 at concrete inputs: the messages rule wins over a present
prompt field; with messages malformed the prompt field wins over question;
question is used when the first two fail; an empty extraction makes the
pipeline skip the cache. -/
theorem extractPrompt_spec_order_witness :
    extractPromptFromBody (some (.obj
        [("messages".data, .arr [.obj [("content".data, .str "A".data)]]),
         ("prompt".data, .str "B".data)])) = "A".data ∧
    extractPromptFromBody (some (.obj
        [("messages".data, .num 3), ("prompt".data, .str "B".data),
         ("question".data, .str "C".data)])) = "B".data ∧
    extractPromptFromBody (some (.obj
        [("messages".data, .arr []), ("question".data, .str "C".data)])) = "C".data ∧
    extractPromptFromBody (some (.obj [("x".data, .bool true)])) = [] ∧
    (serveHTTP
        ⟨some ⟨1, "k".data⟩, fun _ => some ⟨1, "T".data, "k".data, 10, "u".data⟩, some true,
         true, true, fun _ _ => ⟨"Z".data, true, false⟩, fun _ => .status 200, 7, 5⟩
        ⟨"/llm".data, "POST".data, true, 9,
         some (.obj [("x".data, .bool true)]), 9⟩).cacheConsulted = false := by
  obtain ⟨hspec, hpipe⟩ := extractPrompt_spec_order
  refine ⟨?_, ?_, ?_, ?_, ?_⟩
  · rw [hspec]
    rfl
  · rw [hspec]
    rfl
  · rw [hspec]
    rfl
  · rw [hspec]
    rfl
  · exact hpipe _ _ (by rw [hspec]; rfl)

end Gateway
